import Mathlib

/-!
Verification of the post interaction/metrics subsystem of the content
publishing backend (Express/Knex services `contentService.js`,
admin content service, and the `spTrackPostView` stored procedure).

The relational store is shallowly embedded: each table is a list of row
records, and each service function is a Lean function from the database
state (plus the inputs the runtime supplies, such as the current clock
value) to the new database state and the value the service returns.
Service-level failures (the `{error, status}` objects the services
return) are modelled with `Except`.
-/

namespace ContentApp

/-- A row of the Posts table.  Field names follow the columns used by the
services (`Id`, `Image`, `Title`, `Content`, `Preview`, `ReadingTime`,
`CreatedOn`, `UpdatedOn`, `IsPremium`, `Status`, `Likes`, `Dislikes`,
`Comments`, `Views`).  Timestamps are abstract natural clock values. -/
structure PostRow where
  id : Nat
  image : String
  title : String
  content : String
  preview : String
  readingTime : Option Nat
  createdOn : Nat
  updatedOn : Nat
  isPremium : Bool
  status : Nat
  likes : Nat
  dislikes : Nat
  comments : Nat
  views : Nat
deriving Repr, DecidableEq

/-- A row of the UserPostReaction table: one row per (UserId, PostId),
Reaction is 1 = like, 2 = dislike. -/
structure ReactionRow where
  userId : Nat
  postId : Nat
  reaction : Nat
deriving Repr, DecidableEq

/-- A row of the FavoritePosts table. -/
structure FavoriteRow where
  userId : Nat
  postId : Nat
deriving Repr, DecidableEq

/-- A row of the PostViews table (`PostId`, `UserId`, `CreatedOn`). -/
structure ViewRow where
  userId : Nat
  postId : Nat
  createdOn : Nat
deriving Repr, DecidableEq

/-- A row of the Labels table. -/
structure LabelRow where
  id : Nat
  caption : String
deriving Repr, DecidableEq

/-- A row of the PostLabels join table. -/
structure PostLabelRow where
  postId : Nat
  labelId : Nat
deriving Repr, DecidableEq

/-- The database state: the tables touched by the post
interaction subsystem. -/
structure DB where
  posts : List PostRow
  reactions : List ReactionRow
  favorites : List FavoriteRow
  postViews : List ViewRow
  labels : List LabelRow
  postLabels : List PostLabelRow
deriving Repr, DecidableEq

/-- The `{error, status}` object a service returns on failure. -/
structure SvcError where
  error : String
  status : Nat
deriving Repr, DecidableEq

/-- The success value of `setUserPostReaction`:
`{success: true, likes, dislikes, reaction}` (reaction is null after a
toggle-off, hence an `Option`). -/
structure ReactionOk where
  likes : Nat
  dislikes : Nat
  reaction : Option Nat
deriving Repr, DecidableEq

/-- The success value of `setFavoritePost` / `removeFavoritePost`:
`{success: true, isFavorite}`. -/
structure FavOk where
  isFavorite : Bool
deriving Repr, DecidableEq

/-- Number of UserPostReaction rows for a given post carrying a given
reaction value — the `count(*)` the service issues after a mutation. -/
def countReactions (rs : List ReactionRow) (postId rv : Nat) : Nat :=
  rs.countP (fun r => r.postId == postId && r.reaction == rv)

/-- Number of FavoritePosts rows for a given (userId, postId) pair. -/
def countFavorites (fs : List FavoriteRow) (userId postId : Nat) : Nat :=
  fs.countP (fun f => f.userId == userId && f.postId == postId)

/-- Number of PostViews rows for a given post — the fresh count used to
recompute the Views counter. -/
def countViews (vs : List ViewRow) (postId : Nat) : Nat :=
  vs.countP (fun v => v.postId == postId)

/-- The reaction value the database currently stores for (userId, postId):
the `Reaction` of the first matching UserPostReaction row, if any. -/
def reactionOf (db : DB) (userId postId : Nat) : Option Nat :=
  (db.reactions.find? (fun r => r.userId == userId && r.postId == postId)).map
    (fun r => r.reaction)

/-- `setUserPostReaction(userId, postId, reaction)` of
`contentService.js`.  Checks the post exists (else
`{error: 'Post not found', status: 400}`), toggles or replaces the
user reaction row, recomputes the Likes/Dislikes counters as fresh
counts over UserPostReaction, persists them on the Posts row, and
returns the new counts together with the final reaction. -/
def setUserPostReaction (db : DB) (userId postId reaction : Nat) :
    DB × Except SvcError ReactionOk :=
  match db.posts.find? (fun p => p.id == postId) with
  | none => (db, Except.error ⟨"Post not found", 400⟩)
  | some _ =>
    let existing := db.reactions.find?
      (fun r => r.userId == userId && r.postId == postId)
    let step : List ReactionRow × Option Nat :=
      match existing with
      | some ex =>
        if ex.reaction == reaction then
          -- toggling the same reaction: delete the row
          (db.reactions.filter
            (fun r => !(r.userId == userId && r.postId == postId)), none)
        else
          -- changing to a different reaction: update the row
          (db.reactions.map
            (fun r =>
              if r.userId == userId && r.postId == postId then
                { r with reaction := reaction }
              else r), some reaction)
      | none =>
        -- no existing reaction: insert a new row
        (db.reactions ++ [⟨userId, postId, reaction⟩], some reaction)
    let reactions1 := step.1
    let finalReaction := step.2
    let likes := countReactions reactions1 postId 1
    let dislikes := countReactions reactions1 postId 2
    let posts1 := db.posts.map
      (fun p =>
        if p.id == postId then { p with likes := likes, dislikes := dislikes }
        else p)
    ({ db with posts := posts1, reactions := reactions1 },
     Except.ok ⟨likes, dislikes, finalReaction⟩)

/-- `setFavoritePost(postId, userId)` of `contentService.js`: checks the
post exists, then inserts a FavoritePosts row only when none exists. -/
def setFavoritePost (db : DB) (postId userId : Nat) :
    DB × Except SvcError FavOk :=
  match db.posts.find? (fun p => p.id == postId) with
  | none => (db, Except.error ⟨"Post not found", 400⟩)
  | some _ =>
    match db.favorites.find?
        (fun f => f.userId == userId && f.postId == postId) with
    | some _ => (db, Except.ok ⟨true⟩)
    | none =>
      ({ db with favorites := db.favorites ++ [⟨userId, postId⟩] },
       Except.ok ⟨true⟩)

/-- `removeFavoritePost(postId, userId)` of `contentService.js`: checks
the post exists, then deletes the matching FavoritePosts rows (a no-op
when none exist). -/
def removeFavoritePost (db : DB) (postId userId : Nat) :
    DB × Except SvcError FavOk :=
  match db.posts.find? (fun p => p.id == postId) with
  | none => (db, Except.error ⟨"Post not found", 400⟩)
  | some _ =>
    let favorites1 :=
      db.favorites.filter
        (fun f => !(f.userId == userId && f.postId == postId))
    ({ db with favorites := favorites1 }, Except.ok ⟨false⟩)



/-! ### Concrete sample data for witness instantiations -/

/-- A published, non-premium sample post. -/
def samplePost : PostRow :=
  { id := 1, image := "", title := "Hello", content := "hello world body",
    preview := "hello world body", readingTime := some 5, createdOn := 100,
    updatedOn := 100, isPremium := false, status := 1, likes := 0,
    dislikes := 0, comments := 0, views := 0 }

/-- A database holding just the sample post and no interaction rows. -/
def sampleDB : DB :=
  { posts := [samplePost], reactions := [], favorites := [], postViews := [],
    labels := [], postLabels := [] }

/-- Sequential application of `setUserPostReaction` operations
(userId, postId, reaction), keeping only the database state. -/
def applyReactionOps (db : DB) (ops : List (Nat × Nat × Nat)) : DB :=
  ops.foldl (fun d op => (setUserPostReaction d op.1 op.2.1 op.2.2).1) db

/-- The denormalized-counter invariant: every Posts row carries Likes and
Dislikes equal to the count of matching UserPostReaction rows. -/
@[reducible] def CountersInv (db : DB) : Prop :=
  ∀ p ∈ db.posts, p.likes = countReactions db.reactions p.id 1 ∧
    p.dislikes = countReactions db.reactions p.id 2

/-- HTTP status produced by `handlePostReaction` in the content routes:
a falsy post id (0) is rejected with 400, a service `{error, status}`
result replies with `result.status || 500`, success replies 200. -/
def reactionRouteStatus (db : DB) (U P r : Nat) : Nat :=
  if P == 0 then 400
  else
    match (setUserPostReaction db U P r).2 with
    | Except.error e => if e.status == 0 then 500 else e.status
    | Except.ok _ => 200

/-- HTTP status produced by the POST /posts/:id/favorite route. -/
def favoriteRouteStatus (db : DB) (U P : Nat) : Nat :=
  if P == 0 then 400
  else
    match (setFavoritePost db P U).2 with
    | Except.error e => if e.status == 0 then 500 else e.status
    | Except.ok _ => 200

/-- HTTP status produced by the POST /posts/:id/unfavorite route. -/
def unfavoriteRouteStatus (db : DB) (U P : Nat) : Nat :=
  if P == 0 then 400
  else
    match (removeFavoritePost db P U).2 with
    | Except.error e => if e.status == 0 then 500 else e.status
    | Except.ok _ => 200

/-- Index of the last space character in a list of characters
(JavaScript `lastIndexOf(' ')`, with -1 modelled as `none`). -/
def lastIndexOfSpace : List Char → Option Nat
  | [] => none
  | c :: rest =>
    match lastIndexOfSpace rest with
    | some i => some (i + 1)
    | none => if c = ' ' then some 0 else none

/-- `truncateContent(text)` of the admin content service: text of at
most 500 characters is returned unchanged (the source short-circuits
falsy values to "", which coincides with returning the empty text
itself); longer text keeps the first 500 characters, cut back to the
last space when one exists, with "..." appended. -/
def truncateContent (text : String) : String :=
  if text.length ≤ 500 then text
  else
    let truncated := text.toList.take 500
    match lastIndexOfSpace truncated with
    | none => String.mk (truncated ++ "...".toList)
    | some i => String.mk (truncated.take i ++ "...".toList)

/-- Character-wise model of JavaScript `toUpperCase()`. -/
def jsToUpper (s : String) : String := String.mk (s.toList.map Char.toUpper)

/-- Character-wise model of JavaScript `trim()`. -/
def jsTrim (s : String) : String :=
  String.mk (((s.toList.dropWhile Char.isWhitespace).reverse.dropWhile
    Char.isWhitespace).reverse)

/-- `getPostStatusDBValue(statusString)` of the post status helper:
upper-cases and trims the string, maps DRAFT/PUBLISHED/ARCHIVED to
0/1/2, and throws otherwise (empty strings are falsy and throw). -/
def getPostStatusDBValue (statusString : String) : Except String Nat :=
  if statusString = "" then
    Except.error "Status string is required and must be a string"
  else
    let upperStatus := jsTrim (jsToUpper statusString)
    if upperStatus = "DRAFT" then Except.ok 0
    else if upperStatus = "PUBLISHED" then Except.ok 1
    else if upperStatus = "ARCHIVED" then Except.ok 2
    else Except.error "Invalid post status"

/-- The request body for creating or updating a post (`PostData`). -/
structure PostData where
  id : Option Nat
  image : String
  title : String
  content : String
  readingTime : Option Nat
  isPremium : Bool
  status : String
  labels : List String
deriving Repr, DecidableEq

/-- The Posts insert performed by `createPost(postData)` of the admin
content service: the insert fields derive Preview via `truncateContent`,
zero all counters, and stamp CreatedOn/UpdatedOn with the current clock;
the store assigns the new row id.  The associated `addPostLabels` loop
only touches Labels/PostLabels and is not needed by the claims about the
stored Preview.  An invalid status string makes `getPostStatusDBValue`
throw, which aborts the transaction. -/
def createPost (db : DB) (pd : PostData) (now newId : Nat) :
    Except String (DB × PostRow) :=
  match getPostStatusDBValue pd.status with
  | Except.error e => Except.error e
  | Except.ok st =>
    let row : PostRow :=
      { id := newId, image := pd.image, title := pd.title,
        content := pd.content, preview := truncateContent pd.content,
        readingTime := pd.readingTime, createdOn := now, updatedOn := now,
        isPremium := pd.isPremium, status := st, likes := 0, dislikes := 0,
        comments := 0, views := 0 }
    Except.ok ({ db with posts := db.posts ++ [row] }, row)

/-- Timestamp of the most recent PostViews row for (postId, userId):
the `ORDER BY "CreatedOn" DESC LIMIT 1` lookup of `spTrackPostView`. -/
def latestViewTime (db : DB) (postId userId : Nat) : Option Nat :=
  (db.postViews.filter
    (fun v => v.postId == postId && v.userId == userId)).foldr
    (fun v acc =>
      match acc with
      | none => some v.createdOn
      | some t => some (max v.createdOn t)) none

/-- `spTrackPostView(postId, userId)` of `schema.sql`, reached through
the `TrackPostView` service wrapper (which swallows errors): resolves
the cool-down window as the post readingTime (COALESCE 10) in minutes,
exits when the post does not exist, and otherwise inserts a view row
stamped NOW() and refreshes the Views counter as a fresh count over
PostViews — but only when no previous view exists or the most recent
one is strictly older than the window
(`last_view_time < NOW() - INTERVAL '1 minute' * reading_time`,
i.e. `last + window < now` on minute-valued clocks). -/
def spTrackPostView (db : DB) (postId userId now : Nat) : DB :=
  match db.posts.find? (fun p => p.id == postId) with
  | none => db
  | some p =>
    let readingTime := p.readingTime.getD 10
    let lastViewTime := latestViewTime db postId userId
    let doInsert : Bool :=
      match lastViewTime with
      | none => true
      | some t => decide (t + readingTime < now)
    if doInsert then
      let postViews1 := db.postViews ++ [⟨userId, postId, now⟩]
      let views := countViews postViews1 postId
      let posts1 := db.posts.map (fun q =>
        if q.id == postId then { q with views := views } else q)
      { db with postViews := postViews1, posts := posts1 }
    else db

/-- A published post with a 10-minute reading time and no views yet. -/
def viewPost : PostRow :=
  { id := 1, image := "", title := "V", content := "c", preview := "c",
    readingTime := some 10, createdOn := 0, updatedOn := 0,
    isPremium := false, status := 1, likes := 0, dislikes := 0,
    comments := 0, views := 0 }

/-- A database holding just `viewPost` and no view rows. -/
def viewDB : DB :=
  { posts := [viewPost], reactions := [], favorites := [], postViews := [],
    labels := [], postLabels := [] }

/-- `viewPost` with its Views counter at one. -/
def viewedPost : PostRow := { viewPost with views := 1 }

/-- `viewDB` after user 1 viewed post 1 at minute 0 (counter in sync). -/
def viewedDB : DB :=
  { viewDB with posts := [viewedPost], postViews := [⟨1, 1, 0⟩] }

/-- The `PostFilter` model object: optional title, label list, optional
status string; `hasFilters()` is true when any is set (JavaScript
truthiness: empty strings and empty lists are falsy). -/
structure PostFilter where
  title : Option String
  labels : List String
  status : Option String
deriving Repr, DecidableEq

/-- Truthiness of an optional string (null and "" are falsy). -/
def truthyStr : Option String → Bool
  | none => false
  | some s => !(s == "")

/-- `PostFilter.hasFilters()`:
`!!(this.title || this.status || (this.labels && this.labels.length > 0))`. -/
def PostFilter.hasFilters (f : PostFilter) : Bool :=
  truthyStr f.title || truthyStr f.status || decide (f.labels.length > 0)

/-- The existential label subquery of `getPostList`: the post has a
PostLabels row joined to a Labels row whose Caption is the label. -/
def postHasLabel (db : DB) (postId : Nat) (label : String) : Bool :=
  db.postLabels.any (fun pl => pl.postId == postId &&
    db.labels.any (fun l => l.id == pl.labelId && l.caption == label))

/-- Case-insensitive starts-with match, the ILIKE pattern
`title%` built by the title filter. -/
def titleStartsWith (pat : String) (title : String) : Bool :=
  (jsToUpper pat).isPrefixOf (jsToUpper title)

/-- The filter block of the public `getPostList`: applied only when a
filter object is present and `hasFilters()`; the title branch fires on a
truthy title, the labels branch conjoins one existential subquery per
label. -/
def applyPostFilters (db : DB) (filter : Option PostFilter)
    (rows : List PostRow) : List PostRow :=
  match filter with
  | none => rows
  | some f =>
    if f.hasFilters then
      let rows1 :=
        match f.title with
        | some t => if t == "" then rows
            else rows.filter (fun p => titleStartsWith t p.title)
        | none => rows
      if f.labels.length > 0 then
        f.labels.foldl
          (fun acc label => acc.filter (fun p => postHasLabel db p.id label))
          rows1
      else rows1
    else rows

/-- The public `getPostList(userId, limit, offset, filter, favoriteOnly)`
of `contentService.js`, restricted to the rows it returns (the
per-user reaction/favorite decorations and the batched label fetch do
not change which posts are listed): only PUBLISHED rows, optionally
restricted to the requester's favorites, filtered, ordered by CreatedOn
descending, and paginated with OFFSET/LIMIT. -/
def getPostList (db : DB) (userId : Option Nat) (limit offset : Nat)
    (filter : Option PostFilter) (favoriteOnly : Bool) : List PostRow :=
  let rows := db.posts.filter (fun p => p.status == 1)
  let rows :=
    if favoriteOnly && userId.isSome then
      rows.filter (fun p => db.favorites.any
        (fun fv => fv.postId == p.id && fv.userId == userId.getD 0))
    else rows
  let rows := applyPostFilters db filter rows
  ((rows.mergeSort (fun a b => decide (b.createdOn ≤ a.createdOn))).drop
    offset).take limit

/-- A published post carrying labels "a" and "b". -/
def labeledPostBoth : PostRow :=
  { id := 10, image := "", title := "Both", content := "x", preview := "x",
    readingTime := none, createdOn := 5, updatedOn := 5, isPremium := false,
    status := 1, likes := 0, dislikes := 0, comments := 0, views := 0 }

/-- A published post carrying only label "a". -/
def labeledPostOne : PostRow :=
  { id := 11, image := "", title := "One", content := "y", preview := "y",
    readingTime := none, createdOn := 6, updatedOn := 6, isPremium := false,
    status := 1, likes := 0, dislikes := 0, comments := 0, views := 0 }

/-- A database with two labels "a" (id 1) and "b" (id 2), one post
carrying both and one carrying only "a". -/
def labelDB : DB :=
  { posts := [labeledPostBoth, labeledPostOne], reactions := [],
    favorites := [], postViews := [],
    labels := [⟨1, "a"⟩, ⟨2, "b"⟩],
    postLabels := [⟨10, 1⟩, ⟨10, 2⟩, ⟨11, 1⟩] }

/-- The fields of `PostDetailData` that reach the GET /posts/:id
response (comments are a stubbed empty list in the source). -/
structure PostDetail where
  id : Nat
  image : String
  title : String
  content : String
  preview : Option String
  readingTime : Option Nat
  isPremium : Bool
  status : Nat
  reaction : Option Nat
  isFavorite : Option Bool
  numberOfLikes : Nat
  numberOfDislikes : Nat
  numberOfComments : Nat
  labels : List String
deriving Repr, DecidableEq

/-- The label captions attached to a post (the follow-up labels query of
`getPostById`). -/
def labelsOf (db : DB) (postId : Nat) : List String :=
  (db.postLabels.filter (fun pl => pl.postId == postId)).filterMap
    (fun pl => (db.labels.find? (fun l => l.id == pl.labelId)).map
      (fun l => l.caption))

/-- The public `getPostById(postId, userId)` of `contentService.js`:
only published rows qualify, counters come from the Posts row, the
requester reaction/favorite subqueries run only when a userId is
supplied, and the labels are fetched in a follow-up query. -/
def getPostById (db : DB) (postId : Nat) (userId : Option Nat) :
    Option PostDetail :=
  (db.posts.find? (fun p => p.id == postId && p.status == 1)).map
    (fun p =>
      { id := p.id, image := p.image, title := p.title,
        content := p.content, preview := some p.preview,
        readingTime := p.readingTime, isPremium := p.isPremium,
        status := p.status,
        reaction :=
          match userId with
          | some u => reactionOf db u p.id
          | none => none,
        isFavorite :=
          match userId with
          | some u => some (db.favorites.any
              (fun f => f.userId == u && f.postId == p.id))
          | none => none,
        numberOfLikes := p.likes, numberOfDislikes := p.dislikes,
        numberOfComments := p.comments, labels := labelsOf db postId })

/-- The requester of GET /posts/:id as the route sees it: the admin
role claim on the JWT, the optional auth0 id, the resolved local user id
(`tryGetUserId`), and the outcome of `getSubscriptionStatus(auth0Id)` —
`some b` for a response with `active = b`, `none` when the call throws
(the route logs and continues without access). -/
structure Requester where
  isAdmin : Bool
  auth0Id : Option String
  userId : Option Nat
  subscriptionActive : Option Bool
deriving Repr, DecidableEq

/-- The premium access decision of GET /posts/:id: admins always pass;
otherwise an authenticated requester passes only when the subscription
status check succeeds and reports active. -/
def premiumHasAccess (req : Requester) : Bool :=
  if req.isAdmin then true
  else
    match req.auth0Id with
    | none => false
    | some _ =>
      match req.subscriptionActive with
      | some active => active
      | none => false

/-- The JSON body of a successful GET /posts/:id response. -/
structure GetPostResponse where
  success : Bool
  post : PostDetail
  contentRestricted : Bool
deriving Repr, DecidableEq

/-- Outcome of the GET /posts/:id route: an error status or a body. -/
inductive RouteResult where
  | failure (code : Nat) (error : String)
  | success (resp : GetPostResponse)
deriving Repr, DecidableEq

/-- GET /api/content/posts/:id of `routes/content.js`: validates the id,
404s when `getPostById` finds nothing, replaces the content of a premium
post by its preview for requesters without access (setting
`contentRestricted`), then nulls the preview field. -/
def getPostByIdRoute (db : DB) (postId : Nat) (req : Requester) :
    RouteResult :=
  if postId == 0 then RouteResult.failure 400 "Invalid post ID."
  else
    match getPostById db postId req.userId with
    | none => RouteResult.failure 404 "Post not found."
    | some post =>
      let restricted := post.isPremium && !(premiumHasAccess req)
      let content1 :=
        if restricted then (post.preview.getD "") else post.content
      RouteResult.success
        { success := true,
          post := { post with content := content1, preview := none },
          contentRestricted := restricted }

/-- Replacement of the stored content of post `postId` by `c` — the
observational-equivalence probe used to state that the full content of a
premium post never flows into a restricted response. -/
def setStoredContent (db : DB) (postId : Nat) (c : String) : DB :=
  let posts1 := db.posts.map
    (fun p => if p.id == postId then { p with content := c } else p)
  { db with posts := posts1 }

/-- The PostDetail shape of a restricted GET /posts/:id response body:
content replaced by the stored preview, preview nulled. -/
def restrictedDetail (db : DB) (P : Nat) (req : Requester)
    (p : PostRow) : PostDetail :=
  { id := p.id, image := p.image, title := p.title,
    content := p.preview, preview := none,
    readingTime := p.readingTime, isPremium := p.isPremium,
    status := p.status,
    reaction :=
      match req.userId with
      | some u => reactionOf db u p.id
      | none => none,
    isFavorite :=
      match req.userId with
      | some u => some (db.favorites.any
          (fun f => f.userId == u && f.postId == p.id))
      | none => none,
    numberOfLikes := p.likes, numberOfDislikes := p.dislikes,
    numberOfComments := p.comments, labels := labelsOf db P }

/-- A published premium post whose stored content is secret. -/
def premiumPost : PostRow :=
  { id := 1, image := "", title := "Premium", content := "secret body",
    preview := "public preview", readingTime := some 3, createdOn := 1,
    updatedOn := 1, isPremium := true, status := 1, likes := 0,
    dislikes := 0, comments := 0, views := 0 }

/-- A database holding just the premium post. -/
def premiumDB : DB :=
  { posts := [premiumPost], reactions := [], favorites := [],
    postViews := [], labels := [], postLabels := [] }

/-- An anonymous requester: no token, no local user, no subscription. -/
def anonReq : Requester :=
  { isAdmin := false, auth0Id := none, userId := none,
    subscriptionActive := none }

/-- A top-5 entry of the metrics snapshot: the source builds a
`PostListData` carrying only the title and the relevant counter, the
remaining counters defaulting to zero. -/
structure TopPostItem where
  title : String := ""
  numberOfLikes : Nat := 0
  numberOfComments : Nat := 0
deriving Repr, DecidableEq

/-- The `MetricsData` model object; `new MetricsData()` (all defaults)
is the zeroed snapshot returned when recomputation fails. -/
structure MetricsData where
  totalUsers : Nat := 0
  newUsersInLast7Days : Nat := 0
  newUsersInLast30Days : Nat := 0
  totalPublishedPosts : Nat := 0
  newPublishedPostsInLast7Days : Nat := 0
  newPublishedPostsInLast30Days : Nat := 0
  totalActiveSubscriptions : Nat := 0
  top5MostLikedPosts : List TopPostItem := []
  top5MostCommentedPosts : List TopPostItem := []
  userSignups : List Nat := []
  publishedPosts : List Nat := []
deriving Repr, DecidableEq

/-- The zeroed snapshot `new MetricsData()`. -/
def emptyMetrics : MetricsData := {}

/-- The process-wide metrics cache slot `{data, timestamp}`. -/
structure MetricsCache where
  data : Option MetricsData
  timestamp : Option Nat
deriving Repr, DecidableEq

/-- The cache TTL: 15 minutes in milliseconds. -/
def metricsTTL : Nat := 15 * 60 * 1000

/-- The recomputation step of `getMetrics`: all parallel queries resolve
to a snapshot `m` (`compute = some m`), which is stored in the cache
with the current clock and returned; or some query rejects
(`compute = none`), the catch block returns `new MetricsData()` and the
cache is not touched. -/
def getMetricsRecompute (cache : MetricsCache) (now : Nat)
    (compute : Option MetricsData) : MetricsCache × MetricsData :=
  match compute with
  | some m => ({ data := some m, timestamp := some now }, m)
  | none => (cache, emptyMetrics)

/-- `getMetrics()` of the admin content service.  The cache check is the
JavaScript truthiness test
`metricsCache.data && metricsCache.timestamp && (now - timestamp) < ttl`
(a timestamp of 0 is falsy); the truncated `now - ts` agrees with the
JavaScript subtraction here because a negative difference also passes
the `< ttl` test.  On a hit the cached snapshot is returned unchanged;
otherwise the recomputation outcome decides the result. -/
def getMetrics (cache : MetricsCache) (now : Nat)
    (compute : Option MetricsData) : MetricsCache × MetricsData :=
  match cache.data, cache.timestamp with
  | some d, some ts =>
    if ts != 0 && decide (now - ts < metricsTTL) then (cache, d)
    else getMetricsRecompute cache now compute
  | _, _ => getMetricsRecompute cache now compute

/-- A distinguishable cached snapshot for the metrics scenarios. -/
def cachedMetrics : MetricsData := {}

/-- A fresh snapshot differing from `cachedMetrics`. -/
def freshMetrics : MetricsData := { totalUsers := 1 }

/-- A cache slot filled at millisecond 1 with `cachedMetrics`. -/
def metricsCache0 : MetricsCache :=
  { data := some cachedMetrics, timestamp := some 1 }

/-- The empty cache slot a fresh process starts with. -/
def metricsCacheEmpty : MetricsCache := { data := none, timestamp := none }

/-! ### Generic list helper lemmas -/

/-- Finding in a mapped list when the map does not change the predicate. -/
theorem find?_map_pred {α : Type} (g : α → α) (p : α → Bool) (l : List α)
    (h : ∀ a, p (g a) = p a) : (l.map g).find? p = (l.find? p).map g := by
  induction l with
  | nil => rfl
  | cons a t ih =>
    by_cases hp : p a = true
    · rw [List.map_cons, List.find?_cons_of_pos _ (by rw [h]; exact hp),
        List.find?_cons_of_pos _ hp]
      rfl
    · rw [List.map_cons, List.find?_cons_of_neg _ (by rw [h]; exact hp),
        List.find?_cons_of_neg _ hp, ih]

/-! ### Counter preservation: a row-level change to the reactions of post
`P` does not change the reaction counts of any other post `X`. -/

theorem countReactions_filter_other (l : List ReactionRow) (U P X v : Nat)
    (hX : X ≠ P) :
    countReactions (l.filter fun r => !(r.userId == U && r.postId == P)) X v
      = countReactions l X v := by
  induction l with
  | nil => rfl
  | cons a t ih =>
    simp only [countReactions] at ih ⊢
    rw [List.filter_cons]
    by_cases hsel : (a.userId == U && a.postId == P) = true
    · have hPa : a.postId = P := eq_of_beq ((Bool.and_eq_true _ _).mp hsel).2
      have hXa : (a.postId == X) = false := by
        rw [beq_eq_false_iff_ne, hPa]
        exact fun hc => hX hc.symm
      rw [hsel, if_neg (by decide), List.countP_cons, hXa]
      simpa using ih
    · have hsel0 : (a.userId == U && a.postId == P) = false :=
        Bool.eq_false_iff.mpr hsel
      rw [hsel0, if_pos (by decide), List.countP_cons, List.countP_cons]
      omega
theorem countReactions_map_other (l : List ReactionRow) (U P r X v : Nat)
    (hX : X ≠ P) :
    countReactions
      (l.map fun x =>
        if x.userId == U && x.postId == P then { x with reaction := r }
        else x) X v
      = countReactions l X v := by
  induction l with
  | nil => rfl
  | cons a t ih =>
    simp only [countReactions] at ih ⊢
    rw [List.map_cons, List.countP_cons, List.countP_cons]
    by_cases hsel : (a.userId == U && a.postId == P) = true
    · have hPa : a.postId = P := eq_of_beq ((Bool.and_eq_true _ _).mp hsel).2
      have hXa : (a.postId == X) = false := by
        rw [beq_eq_false_iff_ne, hPa]
        exact fun hc => hX hc.symm
      rw [hsel, if_pos rfl]
      have hproj : ({ a with reaction := r } : ReactionRow).postId = a.postId := rfl
      rw [hproj, hXa]
      simpa using ih
    · have hsel0 : (a.userId == U && a.postId == P) = false :=
        Bool.eq_false_iff.mpr hsel
      rw [hsel0]
      simpa using ih

theorem countReactions_append_other (l : List ReactionRow) (U P r X v : Nat)
    (hX : X ≠ P) :
    countReactions (l ++ [⟨U, P, r⟩]) X v = countReactions l X v := by
  have hXa : ((⟨U, P, r⟩ : ReactionRow).postId == X) = false := by
    rw [beq_eq_false_iff_ne]
    exact fun hc => hX (hc.symm)
  simp only [countReactions, List.countP_append, List.countP_cons,
    List.countP_nil, hXa, Bool.false_and]
  simp

/-! ### C1: reaction toggling -/

/-- C1: for every user U, every post P that exists in Posts and every
reaction value r ∈ {1,2}, `setUserPostReaction` succeeds and returns
likes/dislikes equal to the fresh counts over UserPostReaction for P
taken after the row-level change, together with the final stored
reaction; it inserts a (U, P, r) row when U has no reaction row for P
(resulting reaction r), deletes the row when the existing reaction
equals r (resulting reaction none), and updates the row to r when the
existing reaction differs (resulting reaction r). -/
theorem setUserPostReaction_correct (db : DB) (U P r : Nat)
    (hpost : ∃ p ∈ db.posts, p.id = P) (hr : r = 1 ∨ r = 2) :
    (∃ ok : ReactionOk,
      (setUserPostReaction db U P r).2 = Except.ok ok ∧
      ok.likes = countReactions (setUserPostReaction db U P r).1.reactions P 1 ∧
      ok.dislikes =
        countReactions (setUserPostReaction db U P r).1.reactions P 2 ∧
      ok.reaction = reactionOf (setUserPostReaction db U P r).1 U P) ∧
    (db.reactions.find? (fun x => x.userId == U && x.postId == P) = none →
      reactionOf (setUserPostReaction db U P r).1 U P = some r ∧
      (⟨U, P, r⟩ : ReactionRow) ∈
        (setUserPostReaction db U P r).1.reactions) ∧
    (∀ ex, db.reactions.find? (fun x => x.userId == U && x.postId == P) =
        some ex → ex.reaction = r →
      reactionOf (setUserPostReaction db U P r).1 U P = none ∧
      ∀ x ∈ (setUserPostReaction db U P r).1.reactions,
        ¬(x.userId = U ∧ x.postId = P)) ∧
    (∀ ex, db.reactions.find? (fun x => x.userId == U && x.postId == P) =
        some ex → ex.reaction ≠ r →
      reactionOf (setUserPostReaction db U P r).1 U P = some r) := by
  obtain ⟨q, hq, hqid⟩ := hpost
  have hpfind : (db.posts.find? (fun p => p.id == P)).isSome := by
    rw [List.find?_isSome]
    exact ⟨q, hq, by simp [hqid]⟩
  obtain ⟨q0, hq0⟩ := Option.isSome_iff_exists.mp hpfind
  cases hex : db.reactions.find? (fun x => x.userId == U && x.postId == P) with
  | none =>
    have hre : (setUserPostReaction db U P r).1.reactions =
        db.reactions ++ [⟨U, P, r⟩] := by
      simp only [setUserPostReaction, hq0, hex]
    have hres2 : (setUserPostReaction db U P r).2 =
        Except.ok ⟨countReactions (db.reactions ++ [⟨U, P, r⟩]) P 1,
          countReactions (db.reactions ++ [⟨U, P, r⟩]) P 2, some r⟩ := by
      simp only [setUserPostReaction, hq0, hex]
    have hro : reactionOf (setUserPostReaction db U P r).1 U P = some r := by
      simp only [reactionOf]
      rw [hre, List.find?_append, hex]
      simp
    have hmem : (⟨U, P, r⟩ : ReactionRow) ∈
        (setUserPostReaction db U P r).1.reactions := by
      rw [hre]
      simp
    refine ⟨⟨_, hres2, ?_, ?_, ?_⟩, fun _ => ⟨hro, hmem⟩,
      fun ex2 h => Option.noConfusion h, fun ex2 h => Option.noConfusion h⟩
    · rw [hre]
    · rw [hre]
    · rw [hro]
  | some ex =>
    have hpx : (ex.userId == U && ex.postId == P) = true := by
      have h0 := List.find?_some hex
      simpa using h0
    by_cases hexr : ex.reaction = r
    · have hb : (ex.reaction == r) = true := beq_iff_eq.mpr hexr
      have hre : (setUserPostReaction db U P r).1.reactions =
          db.reactions.filter (fun x => !(x.userId == U && x.postId == P)) := by
        simp only [setUserPostReaction, hq0, hex]
        rw [hb, if_pos rfl]
      have hres2 : (setUserPostReaction db U P r).2 =
          Except.ok ⟨countReactions (db.reactions.filter
              (fun x => !(x.userId == U && x.postId == P))) P 1,
            countReactions (db.reactions.filter
              (fun x => !(x.userId == U && x.postId == P))) P 2, none⟩ := by
        simp only [setUserPostReaction, hq0, hex]
        rw [hb, if_pos rfl]
      have hro : reactionOf (setUserPostReaction db U P r).1 U P = none := by
        simp only [reactionOf]
        rw [hre]
        have hn : (db.reactions.filter
            (fun x => !(x.userId == U && x.postId == P))).find?
              (fun x => x.userId == U && x.postId == P) = none := by
          rw [List.find?_eq_none]
          intro x hx hcon
          rw [List.mem_filter, hcon] at hx
          simp at hx
        rw [hn]
        rfl
      have hall : ∀ x ∈ (setUserPostReaction db U P r).1.reactions,
          ¬(x.userId = U ∧ x.postId = P) := by
        rw [hre]
        intro x hx hc
        have hcb : (x.userId == U && x.postId == P) = true := by
          rw [hc.1, hc.2]
          simp
        rw [List.mem_filter, hcb] at hx
        simp at hx
      refine ⟨⟨_, hres2, ?_, ?_, ?_⟩, fun h => Option.noConfusion h,
        fun ex2 h he2 => ?_, fun ex2 h he2 => ?_⟩
      · rw [hre]
      · rw [hre]
      · rw [hro]
      · exact ⟨hro, hall⟩
      · injection h with h2
        rw [h2] at hexr
        exact absurd hexr he2
    · have hb : (ex.reaction == r) = false := beq_eq_false_iff_ne.mpr hexr
      have hgpred : ∀ x : ReactionRow,
          ((if x.userId == U && x.postId == P then
              { x with reaction := r } else x).userId == U &&
           (if x.userId == U && x.postId == P then
              { x with reaction := r } else x).postId == P)
            = (x.userId == U && x.postId == P) := by
        intro x
        by_cases hx : (x.userId == U && x.postId == P) = true
        · rw [hx, if_pos rfl]
          exact hx
        · rw [Bool.eq_false_iff.mpr hx]
          simpa using hx
      have hre : (setUserPostReaction db U P r).1.reactions =
          db.reactions.map (fun x =>
            if x.userId == U && x.postId == P then { x with reaction := r }
            else x) := by
        simp only [setUserPostReaction, hq0, hex]
        rw [hb]
        rw [if_neg Bool.false_ne_true]
      have hres2 : (setUserPostReaction db U P r).2 =
          Except.ok ⟨countReactions (db.reactions.map (fun x =>
              if x.userId == U && x.postId == P then { x with reaction := r }
              else x)) P 1,
            countReactions (db.reactions.map (fun x =>
              if x.userId == U && x.postId == P then { x with reaction := r }
              else x)) P 2, some r⟩ := by
        simp only [setUserPostReaction, hq0, hex]
        rw [hb]
        rw [if_neg Bool.false_ne_true]
      have hUex : ex.userId = U := eq_of_beq ((Bool.and_eq_true _ _).mp hpx).1
      have hPex : ex.postId = P := eq_of_beq ((Bool.and_eq_true _ _).mp hpx).2
      have hro : reactionOf (setUserPostReaction db U P r).1 U P = some r := by
        simp only [reactionOf]
        rw [hre, find?_map_pred _ _ _ hgpred, hex]
        simp [hpx, hUex, hPex]
      refine ⟨⟨_, hres2, ?_, ?_, ?_⟩, fun h => Option.noConfusion h,
        fun ex2 h he2 => ?_, fun ex2 h he2 => hro⟩
      · rw [hre]
      · rw [hre]
      · rw [hro]
      · injection h with h2
        rw [h2] at hexr
        exact absurd he2 hexr

/-- C1 witness: inserting a like for user 7 on the sample post. -/
theorem setUserPostReaction_correct_witness :
    reactionOf (setUserPostReaction sampleDB 7 1 1).1 7 1 = some 1 ∧
    (⟨7, 1, 1⟩ : ReactionRow) ∈ (setUserPostReaction sampleDB 7 1 1).1.reactions :=
  (setUserPostReaction_correct sampleDB 7 1 1
    ⟨samplePost, by decide, by decide⟩ (Or.inl rfl)).2.1 rfl

/-! ### C2: the Likes/Dislikes counter invariant is preserved -/

theorem countersInv_of_parts (db : DB) (l1 : List ReactionRow) (P : Nat)
    (hother : ∀ X v, X ≠ P →
      countReactions l1 X v = countReactions db.reactions X v)
    (h : CountersInv db) :
    CountersInv { db with
      posts := db.posts.map (fun p =>
        if p.id == P then
          { p with likes := countReactions l1 P 1,
                   dislikes := countReactions l1 P 2 }
        else p),
      reactions := l1 } := by
  intro p hp
  simp only [List.mem_map] at hp
  obtain ⟨p0, hp0, hpe⟩ := hp
  subst hpe
  by_cases hid : p0.id = P
  · have hb : (p0.id == P) = true := beq_iff_eq.mpr hid
    rw [hb, if_pos rfl]
    constructor
    · show countReactions l1 P 1 = countReactions l1 p0.id 1
      rw [hid]
    · show countReactions l1 P 2 = countReactions l1 p0.id 2
      rw [hid]
  · have hb0 : (p0.id == P) = false := beq_eq_false_iff_ne.mpr hid
    rw [hb0, if_neg Bool.false_ne_true]
    obtain ⟨h1, h2⟩ := h p0 hp0
    constructor
    · show p0.likes = countReactions l1 p0.id 1
      rw [hother p0.id 1 hid]
      exact h1
    · show p0.dislikes = countReactions l1 p0.id 2
      rw [hother p0.id 2 hid]
      exact h2

theorem countersInv_step (db : DB) (U P r : Nat) (h : CountersInv db) :
    CountersInv (setUserPostReaction db U P r).1 := by
  cases hq0 : db.posts.find? (fun p => p.id == P) with
  | none =>
    have hstate : (setUserPostReaction db U P r).1 = db := by
      simp only [setUserPostReaction, hq0]
    rw [hstate]
    exact h
  | some q0 =>
    cases hex : db.reactions.find?
        (fun x => x.userId == U && x.postId == P) with
    | none =>
      simp only [setUserPostReaction, hq0, hex]
      exact countersInv_of_parts db _ P
        (fun X v hX => countReactions_append_other _ _ _ _ _ _ hX) h
    | some ex =>
      by_cases hexr : ex.reaction = r
      · have hb : (ex.reaction == r) = true := beq_iff_eq.mpr hexr
        simp only [setUserPostReaction, hq0, hex]
        rw [hb, if_pos rfl]
        exact countersInv_of_parts db _ P
          (fun X v hX => countReactions_filter_other _ _ _ _ _ hX) h
      · have hb : (ex.reaction == r) = false := beq_eq_false_iff_ne.mpr hexr
        simp only [setUserPostReaction, hq0, hex]
        rw [hb, if_neg Bool.false_ne_true]
        exact countersInv_of_parts db _ P
          (fun X v hX => countReactions_map_other _ _ _ _ _ _ hX) h

/-- C2: after any finite sequence of `setUserPostReaction` operations
starting from a state satisfying the counter invariant, every Posts row
still carries Likes equal to the count of UserPostReaction rows with
Reaction = 1 for that post and Dislikes equal to the count with
Reaction = 2. -/
theorem reaction_counters_invariant (db : DB) (ops : List (Nat × Nat × Nat))
    (h : CountersInv db) : CountersInv (applyReactionOps db ops) := by
  induction ops generalizing db with
  | nil => exact h
  | cons op t ih => exact ih _ (countersInv_step db op.1 op.2.1 op.2.2 h)

/-- C2 witness: a like, a dislike by another user, and a toggle-off on
the sample database keep the counters consistent. -/
theorem reaction_counters_invariant_witness :
    CountersInv (applyReactionOps sampleDB [(7, 1, 1), (8, 1, 2), (7, 1, 1)]) :=
  reaction_counters_invariant sampleDB [(7, 1, 1), (8, 1, 2), (7, 1, 1)]
    (by decide)

/-! ### C9: favorite add/remove idempotence -/

/-- C9: for an existing post, calling `setFavoritePost` twice succeeds
both times and leaves exactly one (U, P) FavoritePosts row, and calling
`removeFavoritePost` when no (U, P) row exists succeeds as a no-op that
leaves the database (in particular FavoritePosts) unchanged. -/
theorem favorite_idempotent (db : DB) (U P : Nat)
    (hpost : ∃ p ∈ db.posts, p.id = P)
    (hpk : countFavorites db.favorites U P ≤ 1) :
    (setFavoritePost db P U).2 = Except.ok ⟨true⟩ ∧
    (setFavoritePost (setFavoritePost db P U).1 P U).2 = Except.ok ⟨true⟩ ∧
    countFavorites
      (setFavoritePost (setFavoritePost db P U).1 P U).1.favorites U P = 1 ∧
    (countFavorites db.favorites U P = 0 →
      removeFavoritePost db P U = (db, Except.ok ⟨false⟩)) := by
  obtain ⟨q, hq, hqid⟩ := hpost
  have hpfind : (db.posts.find? (fun p => p.id == P)).isSome := by
    rw [List.find?_isSome]
    exact ⟨q, hq, by simp [hqid]⟩
  obtain ⟨q0, hq0⟩ := Option.isSome_iff_exists.mp hpfind
  cases hf : db.favorites.find? (fun f => f.userId == U && f.postId == P) with
  | none =>
    have hc0 : db.favorites.countP
        (fun f => f.userId == U && f.postId == P) = 0 := by
      rw [List.countP_eq_zero]
      exact List.find?_eq_none.mp hf
    have h1 : setFavoritePost db P U =
        ({ db with favorites := db.favorites ++ [⟨U, P⟩] },
         Except.ok ⟨true⟩) := by
      simp only [setFavoritePost, hq0, hf]
    have hf2 : (db.favorites ++ [(⟨U, P⟩ : FavoriteRow)]).find?
        (fun f => f.userId == U && f.postId == P) = some ⟨U, P⟩ := by
      rw [List.find?_append, hf]
      simp
    have h2 : setFavoritePost
        { db with favorites := db.favorites ++ [⟨U, P⟩] } P U =
        ({ db with favorites := db.favorites ++ [⟨U, P⟩] },
         Except.ok ⟨true⟩) := by
      simp only [setFavoritePost, hq0, hf2]
    refine ⟨by rw [h1], by rw [h1, h2], ?_, ?_⟩
    · rw [h1, h2]
      show countFavorites (db.favorites ++ [⟨U, P⟩]) U P = 1
      simp [countFavorites, List.countP_append, hc0, List.countP_cons]
    · intro h0
      simp only [removeFavoritePost, hq0]
      have hfeq : db.favorites.filter
          (fun f => !(f.userId == U && f.postId == P)) = db.favorites := by
        rw [List.filter_eq_self]
        intro f hfmem
        have hne : (f.userId == U && f.postId == P) = false :=
          Bool.eq_false_iff.mpr (List.countP_eq_zero.mp hc0 f hfmem)
        rw [hne]
        rfl
      rw [hfeq]
  | some fav =>
    have hcpos : 0 < db.favorites.countP
        (fun f => f.userId == U && f.postId == P) := by
      have hpf : (fav.userId == U && fav.postId == P) = true := by
        have h0 := List.find?_some hf
        simpa using h0
      exact List.countP_pos_iff.mpr ⟨fav, List.mem_of_find?_eq_some hf, hpf⟩
    have hc1 : countFavorites db.favorites U P = 1 :=
      Nat.le_antisymm hpk hcpos
    have h1 : setFavoritePost db P U = (db, Except.ok ⟨true⟩) := by
      simp only [setFavoritePost, hq0, hf]
    refine ⟨by rw [h1], by rw [h1, h1], ?_, ?_⟩
    · rw [h1, h1]
      exact hc1
    · intro h0
      rw [h0] at hc1
      exact absurd hc1 (by decide)

/-- C9 witness: user 7 favorites the sample post twice, and unfavoriting
on the empty favorite table is a no-op. -/
theorem favorite_idempotent_witness :
    (setFavoritePost sampleDB 1 7).2 = Except.ok ⟨true⟩ ∧
    (setFavoritePost (setFavoritePost sampleDB 1 7).1 1 7).2 =
      Except.ok ⟨true⟩ ∧
    countFavorites
      (setFavoritePost (setFavoritePost sampleDB 1 7).1 1 7).1.favorites 7 1
      = 1 ∧
    (countFavorites sampleDB.favorites 7 1 = 0 →
      removeFavoritePost sampleDB 1 7 = (sampleDB, Except.ok ⟨false⟩)) :=
  favorite_idempotent sampleDB 7 1 ⟨samplePost, by decide, by decide⟩
    (by decide)

/-! ### C3: behaviour on a nonexistent post id -/

/-- C3 counterexample: for a post id absent from Posts (id 2 against the
sample database) all three mutators fail with the 'Post not found'
service error, but the HTTP layer replies 400 — not 404 as claimed. -/
theorem not_found_status_counterexample :
    (setUserPostReaction sampleDB 7 2 1).2 =
      Except.error ⟨"Post not found", 400⟩ ∧
    reactionRouteStatus sampleDB 7 2 1 = 400 ∧
    favoriteRouteStatus sampleDB 7 2 = 400 ∧
    unfavoriteRouteStatus sampleDB 7 2 = 400 ∧
    reactionRouteStatus sampleDB 7 2 1 ≠ 404 := by
  exact ⟨rfl, by decide, by decide, by decide, by decide⟩

/-- C3 (amended): for every user U and post id P that does not exist in
Posts, `setUserPostReaction`, `setFavoritePost` and `removeFavoritePost`
fail with the error object `{error: 'Post not found', status: 400}`
leaving the database unchanged, and the HTTP layer maps this to response
status 400 via `result.status || 500`. -/
theorem not_found_maps_to_400 (db : DB) (U P r : Nat)
    (hpost : ∀ p ∈ db.posts, p.id ≠ P) (hP : P ≠ 0) :
    setUserPostReaction db U P r =
      (db, Except.error ⟨"Post not found", 400⟩) ∧
    setFavoritePost db P U = (db, Except.error ⟨"Post not found", 400⟩) ∧
    removeFavoritePost db P U = (db, Except.error ⟨"Post not found", 400⟩) ∧
    reactionRouteStatus db U P r = 400 ∧
    favoriteRouteStatus db U P = 400 ∧
    unfavoriteRouteStatus db U P = 400 := by
  have hn : db.posts.find? (fun p => p.id == P) = none := by
    rw [List.find?_eq_none]
    intro p hp
    simpa using hpost p hp
  have hP0 : (P == 0) = false := beq_eq_false_iff_ne.mpr hP
  refine ⟨?_, ?_, ?_, ?_, ?_, ?_⟩
  · simp [setUserPostReaction, hn]
  · simp [setFavoritePost, hn]
  · simp [removeFavoritePost, hn]
  · simp [reactionRouteStatus, setUserPostReaction, hn, hP0]
  · simp [favoriteRouteStatus, setFavoritePost, hn, hP0]
  · simp [unfavoriteRouteStatus, removeFavoritePost, hn, hP0]

/-- C3 witness: instantiating the amended statement at post id 2, which
is absent from the sample database. -/
theorem not_found_maps_to_400_witness :
    setUserPostReaction sampleDB 7 2 1 =
      (sampleDB, Except.error ⟨"Post not found", 400⟩) ∧
    setFavoritePost sampleDB 2 7 =
      (sampleDB, Except.error ⟨"Post not found", 400⟩) ∧
    removeFavoritePost sampleDB 2 7 =
      (sampleDB, Except.error ⟨"Post not found", 400⟩) ∧
    reactionRouteStatus sampleDB 7 2 1 = 400 ∧
    favoriteRouteStatus sampleDB 7 2 = 400 ∧
    unfavoriteRouteStatus sampleDB 7 2 = 400 :=
  not_found_maps_to_400 sampleDB 7 2 1 (by decide) (by decide)

/-! ### C8: the stored Preview is the word-boundary truncation -/

theorem lastIndexOfSpace_eq_none (l : List Char) (h : ∀ c ∈ l, c ≠ ' ') :
    lastIndexOfSpace l = none := by
  induction l with
  | nil => rfl
  | cons c rest ih =>
    simp only [lastIndexOfSpace,
      ih (fun d hd => h d (List.mem_cons_of_mem _ hd))]
    rw [if_neg (h c (List.mem_cons_self _ _))]

theorem lastIndexOfSpace_eq_some (l : List Char) (i : Nat)
    (hi : l[i]? = some ' ')
    (hlast : ∀ j, j < l.length → i < j → l[j]? ≠ some ' ') :
    lastIndexOfSpace l = some i := by
  induction l generalizing i with
  | nil => simp at hi
  | cons c rest ih =>
    cases i with
    | zero =>
      have hc : c = ' ' := by
        rw [List.getElem?_cons_zero] at hi
        exact Option.some.inj hi
      have hnone : lastIndexOfSpace rest = none := by
        apply lastIndexOfSpace_eq_none
        intro d hd hds
        obtain ⟨k, hk⟩ := List.mem_iff_getElem?.mp hd
        have hklen : k < rest.length := by
          rcases List.getElem?_eq_some.mp hk with ⟨hlt, _⟩
          exact hlt
        refine hlast (k + 1) (by simpa using Nat.succ_lt_succ hklen)
          (Nat.succ_pos k) ?_
        rw [List.getElem?_cons_succ, hk, hds]
      simp [lastIndexOfSpace, hnone, hc]
    | succ i0 =>
      have hi0 : rest[i0]? = some ' ' := by
        rw [List.getElem?_cons_succ] at hi
        exact hi
      have hlast0 : ∀ j, j < rest.length → i0 < j → rest[j]? ≠ some ' ' := by
        intro j hj hij hcon
        refine hlast (j + 1) (by simpa using Nat.succ_lt_succ hj)
          (Nat.succ_lt_succ hij) ?_
        rw [List.getElem?_cons_succ]
        exact hcon
      simp [lastIndexOfSpace, ih i0 hi0 hlast0]

/-- C8: `createPost` stores Preview = truncateContent(content), and
truncateContent leaves content of at most 500 characters unchanged
while content longer than 500 characters whose last space within the
first 500 characters sits at index i is cut to its first i characters
with "..." appended. -/
theorem preview_truncation (db : DB) (pd : PostData) (now newId st : Nat)
    (hst : getPostStatusDBValue pd.status = Except.ok st) :
    (∃ out : DB × PostRow, createPost db pd now newId = Except.ok out ∧
      out.2.preview = truncateContent pd.content ∧
      out.2 ∈ out.1.posts) ∧
    (pd.content.toList.length ≤ 500 →
      truncateContent pd.content = pd.content) ∧
    (∀ i, 500 < pd.content.toList.length → i < 500 →
      pd.content.toList[i]? = some ' ' →
      (∀ j, j < 500 → i < j → pd.content.toList[j]? ≠ some ' ') →
      truncateContent pd.content =
        String.mk (pd.content.toList.take i ++ "...".toList)) := by
  refine ⟨?_, ?_, ?_⟩
  · cases hcp : createPost db pd now newId with
    | error e =>
      simp only [createPost, hst] at hcp
      exact Except.noConfusion hcp
    | ok out =>
      refine ⟨out, rfl, ?_, ?_⟩
      · simp only [createPost, hst] at hcp
        injection hcp with h2
        rw [← h2]
      · simp only [createPost, hst] at hcp
        injection hcp with h2
        rw [← h2]
        simp
  · intro hlen
    have hlen2 : pd.content.length ≤ 500 := hlen
    rw [truncateContent, if_pos hlen2]
  · intro i hlen hi500 hsp hlast
    have hlen' : ¬ pd.content.length ≤ 500 := Nat.not_le.mpr hlen
    rw [truncateContent, if_neg hlen']
    have hitake : (pd.content.toList.take 500)[i]? = some ' ' := by
      rw [List.getElem?_take_of_lt hi500]
      exact hsp
    have hlasttake : ∀ j, j < (pd.content.toList.take 500).length →
        i < j → (pd.content.toList.take 500)[j]? ≠ some ' ' := by
      intro j hj hij
      have hj500 : j < 500 := by
        rw [List.length_take] at hj
        omega
      rw [List.getElem?_take_of_lt hj500]
      exact hlast j hj500 hij
    have hfound := lastIndexOfSpace_eq_some _ i hitake hlasttake
    simp only [hfound]
    rw [List.take_take]
    have hmin : min i 500 = i := Nat.min_eq_left (Nat.le_of_lt hi500)
    rw [hmin]

set_option maxRecDepth 10000 in
/-- C8 witness: a 501-character content (10 letters, a space, then 490
letters) is previewed as its first 10 characters plus "...". -/
theorem preview_truncation_witness :
    truncateContent (String.mk (List.replicate 10 'a' ++
        ' ' :: List.replicate 490 'b')) =
      String.mk (List.replicate 10 'a' ++ "...".toList) := by
  have h := (preview_truncation sampleDB
    { id := none, image := "", title := "Hello",
      content := String.mk (List.replicate 10 'a' ++
        ' ' :: List.replicate 490 'b'),
      readingTime := none, isPremium := false, status := "PUBLISHED",
      labels := [] } 0 2 1 rfl).2.2 10 (by decide) (by decide)
    (by decide) (by decide)
  rw [h]
  decide

/-! ### C7: view tracking cool-down -/

theorem latestViewTime_none_filter (db : DB) (P U : Nat)
    (h : latestViewTime db P U = none) :
    db.postViews.filter (fun v => v.postId == P && v.userId == U) = [] := by
  cases heq : db.postViews.filter
      (fun v => v.postId == P && v.userId == U) with
  | nil => rfl
  | cons v rest =>
    simp only [latestViewTime, heq, List.foldr_cons] at h
    cases hfr : rest.foldr
        (fun v acc =>
          match acc with
          | none => some v.createdOn
          | some t => some (max v.createdOn t)) none with
    | none => rw [hfr] at h; simp at h
    | some t => rw [hfr] at h; simp at h

/-- C7 counterexample: post 1 has readingTime 10 and its only view by
user 1 is at minute 0; at minute 10 the most recent view is not younger
than the cool-down window (its age equals the window), yet the stored
procedure does not insert a view row, contradicting the claimed
"otherwise inserts one PostViews row". -/
theorem view_cooldown_boundary_counterexample :
    latestViewTime viewedDB 1 1 = some 0 ∧
    (viewedDB.posts.find? (fun p => p.id == 1)).map
      (fun p => p.readingTime.getD 10) = some 10 ∧
    ¬(10 - 0 < 10) ∧
    spTrackPostView viewedDB 1 1 10 = viewedDB ∧
    (spTrackPostView viewedDB 1 1 10).postViews.length = 1 :=
  ⟨rfl, rfl, by decide, rfl, rfl⟩

theorem spTrackPostView_noop (db : DB) (P U now : Nat) (p : PostRow)
    (hfind : db.posts.find? (fun q => q.id == P) = some p)
    (t : Nat) (hlat : latestViewTime db P U = some t)
    (hle : now ≤ t + p.readingTime.getD 10) :
    spTrackPostView db P U now = db := by
  have hdec : decide (t + p.readingTime.getD 10 < now) = false :=
    decide_eq_false (Nat.not_lt.mpr hle)
  simp only [spTrackPostView, hfind, hlat, hdec]
  rw [if_neg Bool.false_ne_true]

theorem spTrackPostView_insert (db : DB) (P U now : Nat) (p : PostRow)
    (hfind : db.posts.find? (fun q => q.id == P) = some p)
    (hcase : latestViewTime db P U = none ∨
      ∃ t, latestViewTime db P U = some t ∧
        t + p.readingTime.getD 10 < now) :
    (spTrackPostView db P U now).postViews =
        db.postViews ++ [⟨U, P, now⟩] ∧
    (spTrackPostView db P U now).posts =
        db.posts.map (fun q =>
          if q.id == P then
            { q with views := countViews (db.postViews ++ [⟨U, P, now⟩]) P }
          else q) := by
  cases hcase with
  | inl hlat =>
    constructor
    · simp only [spTrackPostView, hfind, hlat]
      rw [if_pos (by trivial)]
    · simp only [spTrackPostView, hfind, hlat]
      rw [if_pos (by trivial)]
  | inr hex =>
    obtain ⟨t, hlat, hlt⟩ := hex
    have hdec : decide (t + p.readingTime.getD 10 < now) = true :=
      decide_eq_true hlt
    constructor
    · simp only [spTrackPostView, hfind, hlat, hdec]
      rw [if_pos (by trivial)]
    · simp only [spTrackPostView, hfind, hlat, hdec]
      rw [if_pos (by trivial)]

/-- C7 (amended): with cool-down window w = readingTime minutes (10 when
null), `spTrackPostView` is a no-op when the most recent (U, P) view is
at most w old — younger than the window or exactly as old as it —
inserts one PostViews row and sets Views(P) to the fresh PostViews count
when no view exists or the latest is strictly older than w, and two
calls at most w apart starting from no recorded (U, P) view grow the
PostViews count for P (and the stored Views of P) by exactly 1, not 2. -/
theorem trackPostView_correct (db : DB) (P U now t1 t2 : Nat) (p : PostRow)
    (hfind : db.posts.find? (fun q => q.id == P) = some p) :
    (∀ t, latestViewTime db P U = some t → now ≤ t + p.readingTime.getD 10 →
      spTrackPostView db P U now = db) ∧
    ((latestViewTime db P U = none ∨
      ∃ t, latestViewTime db P U = some t ∧
        t + p.readingTime.getD 10 < now) →
      (spTrackPostView db P U now).postViews =
        db.postViews ++ [⟨U, P, now⟩] ∧
      ∀ q ∈ (spTrackPostView db P U now).posts, q.id = P →
        q.views = countViews (spTrackPostView db P U now).postViews P) ∧
    (latestViewTime db P U = none → t1 ≤ t2 →
      t2 - t1 ≤ p.readingTime.getD 10 →
      countViews
        (spTrackPostView (spTrackPostView db P U t1) P U t2).postViews P =
        countViews db.postViews P + 1 ∧
      ∀ q ∈ (spTrackPostView (spTrackPostView db P U t1) P U t2).posts,
        q.id = P → q.views = countViews db.postViews P + 1) := by
  have hcnt1 : ∀ s : Nat, countViews (db.postViews ++ [⟨U, P, s⟩]) P =
      countViews db.postViews P + 1 := by
    intro s
    simp [countViews, List.countP_append, List.countP_cons]
  refine ⟨?_, ?_, ?_⟩
  · intro t hlat hle
    exact spTrackPostView_noop db P U now p hfind t hlat hle
  · intro hcase
    obtain ⟨hpv, hposts⟩ := spTrackPostView_insert db P U now p hfind hcase
    refine ⟨hpv, ?_⟩
    intro q hq hqP
    rw [hposts] at hq
    rw [hpv]
    simp only [List.mem_map] at hq
    obtain ⟨q0, hq0, hqe⟩ := hq
    by_cases hid : (q0.id == P) = true
    · rw [← hqe, hid, if_pos rfl]
    · rw [← hqe, Bool.eq_false_iff.mpr hid,
        if_neg Bool.false_ne_true] at hqP
      exact absurd (beq_iff_eq.mpr hqP) (by simpa using hid)
  · intro hlat hle hwin
    have hfilter := latestViewTime_none_filter db P U hlat
    obtain ⟨hpv1, hposts1⟩ :=
      spTrackPostView_insert db P U t1 p hfind (Or.inl hlat)
    have hpred : ∀ q : PostRow,
        ((if q.id == P then
            { q with views := countViews (db.postViews ++ [⟨U, P, t1⟩]) P }
          else q).id == P) = (q.id == P) := by
      intro q
      by_cases hq : (q.id == P) = true
      · rw [hq, if_pos rfl]
        exact hq
      · rw [Bool.eq_false_iff.mpr hq, if_neg Bool.false_ne_true]
        exact Bool.eq_false_iff.mpr hq
    have hfind2 : (spTrackPostView db P U t1).posts.find?
        (fun q => q.id == P) = some (if p.id == P then
          { p with views := countViews (db.postViews ++ [⟨U, P, t1⟩]) P }
          else p) := by
      rw [hposts1, find?_map_pred _ _ _ hpred, hfind]
      rfl
    have hpP : (p.id == P) = true := by
      have h0 := List.find?_some hfind
      simpa using h0
    have hlat2 : latestViewTime (spTrackPostView db P U t1) P U =
        some t1 := by
      simp only [latestViewTime, hpv1]
      rw [List.filter_append, hfilter]
      simp
    have hrt2 : (if p.id == P then
        { p with views := countViews (db.postViews ++ [⟨U, P, t1⟩]) P }
        else p).readingTime = p.readingTime := by
      rw [hpP, if_pos rfl]
    have hle2 : t2 ≤ t1 + ((if p.id == P then
        { p with views := countViews (db.postViews ++ [⟨U, P, t1⟩]) P }
        else p).readingTime.getD 10) := by
      rw [hrt2]
      omega
    have hstate2 := spTrackPostView_noop (spTrackPostView db P U t1) P U t2
      _ hfind2 t1 hlat2 hle2
    rw [hstate2]
    refine ⟨?_, ?_⟩
    · rw [hpv1]
      exact hcnt1 t1
    · intro q hq hqP
      rw [hposts1] at hq
      simp only [List.mem_map] at hq
      obtain ⟨q0, hq0, hqe⟩ := hq
      by_cases hid : (q0.id == P) = true
      · rw [← hqe, hid, if_pos rfl]
        exact hcnt1 t1
      · rw [← hqe, Bool.eq_false_iff.mpr hid,
          if_neg Bool.false_ne_true] at hqP
        exact absurd (beq_iff_eq.mpr hqP) (by simpa using hid)

/-- C7 witness: two views of post 1 by user 1 at minutes 0 and 5 (inside
the 10-minute window) leave exactly one recorded view and Views = 1. -/
theorem trackPostView_correct_witness :
    countViews
      (spTrackPostView (spTrackPostView viewDB 1 1 0) 1 1 5).postViews 1 =
      countViews viewDB.postViews 1 + 1 ∧
    ∀ q ∈ (spTrackPostView (spTrackPostView viewDB 1 1 0) 1 1 5).posts,
      q.id = 1 → q.views = countViews viewDB.postViews 1 + 1 :=
  (trackPostView_correct viewDB 1 1 0 0 5 viewPost rfl).2.2 rfl
    (by decide) (by decide)

/-! ### C4: the labels filter is conjunctive -/

theorem mem_foldl_filter {α : Type} (q : String → α → Bool) (L : List String)
    (rows : List α) (p : α) :
    p ∈ L.foldl (fun acc label => acc.filter (q label)) rows ↔
      p ∈ rows ∧ ∀ label ∈ L, q label p = true := by
  induction L generalizing rows with
  | nil => simp
  | cons a t ih =>
    rw [List.foldl_cons, ih]
    simp only [List.mem_filter, List.mem_cons]
    constructor
    · rintro ⟨⟨hmem, hqa⟩, hall⟩
      refine ⟨hmem, ?_⟩
      intro label hlabel
      cases hlabel with
      | inl he => rw [he]; exact hqa
      | inr ht => exact hall label ht
    · rintro ⟨hmem, hall⟩
      exact ⟨⟨hmem, hall a (Or.inl rfl)⟩,
        fun label hl => hall label (Or.inr hl)⟩

theorem foldl_filter_length_le {α : Type} (q : String → α → Bool)
    (L : List String) (rows : List α) :
    (L.foldl (fun acc label => acc.filter (q label)) rows).length ≤
      rows.length := by
  induction L generalizing rows with
  | nil => simp
  | cons a t ih =>
    rw [List.foldl_cons]
    exact Nat.le_trans (ih _) (List.length_filter_le _ _)

/-- C4: with a non-empty labels filter L (title and status unset) and a
page large enough for the whole table, the public `getPostList` returns
exactly the published posts that carry every label in L — a post
carrying only some of the labels is never returned. -/
theorem labels_filter_conjunctive (db : DB) (userId : Option Nat)
    (limit : Nat) (L : List String) (hL : L ≠ [])
    (hlim : db.posts.length ≤ limit) :
    ∀ p : PostRow,
      p ∈ getPostList db userId limit 0 (some ⟨none, L, none⟩) false ↔
      (p ∈ db.posts ∧ p.status = 1 ∧
        ∀ label ∈ L, postHasLabel db p.id label = true) := by
  intro p
  have hlen : 0 < L.length := List.length_pos.mpr hL
  have hHas : (PostFilter.hasFilters ⟨none, L, none⟩) = true := by
    simp [PostFilter.hasFilters, truthyStr, hlen]
  have happly : applyPostFilters db (some ⟨none, L, none⟩)
      (db.posts.filter (fun p => p.status == 1)) =
      L.foldl (fun acc label => acc.filter
        (fun p => postHasLabel db p.id label))
        (db.posts.filter (fun p => p.status == 1)) := by
    simp only [applyPostFilters, hHas]
    rw [if_pos (by trivial), if_pos hlen]
  have hgoal : getPostList db userId limit 0 (some ⟨none, L, none⟩) false =
      ((L.foldl (fun acc label => acc.filter
          (fun p => postHasLabel db p.id label))
          (db.posts.filter (fun p => p.status == 1))).mergeSort
        (fun a b => decide (b.createdOn ≤ a.createdOn))).take limit := by
    simp only [getPostList, Bool.false_and, if_neg Bool.false_ne_true,
      happly, List.drop_zero]
  rw [hgoal]
  have hlenle : ((L.foldl (fun acc label => acc.filter
      (fun p => postHasLabel db p.id label))
      (db.posts.filter (fun p => p.status == 1))).mergeSort
        (fun a b => decide (b.createdOn ≤ a.createdOn))).length ≤ limit := by
    rw [List.length_mergeSort]
    exact Nat.le_trans
      (Nat.le_trans (foldl_filter_length_le _ _ _)
        (List.length_filter_le _ _)) hlim
  rw [List.take_of_length_le hlenle, List.mem_mergeSort,
    mem_foldl_filter]
  rw [List.mem_filter]
  constructor
  · rintro ⟨⟨hmem, hstat⟩, hall⟩
    exact ⟨hmem, by simpa using hstat, hall⟩
  · rintro ⟨hmem, hstat, hall⟩
    exact ⟨⟨hmem, by simpa using hstat⟩, hall⟩

/-- C4 witness: filtering the sample label database by both "a" and "b"
returns exactly the post that has both labels. -/
theorem labels_filter_conjunctive_witness :
    labeledPostBoth ∈ getPostList labelDB none 5 0
      (some ⟨none, ["a", "b"], none⟩) false ∧
    ¬ (labeledPostOne ∈ getPostList labelDB none 5 0
      (some ⟨none, ["a", "b"], none⟩) false) := by
  constructor
  · exact (labels_filter_conjunctive labelDB none 5 ["a", "b"] (by decide)
      (by decide) labeledPostBoth).mpr ⟨by decide, by decide, by decide⟩
  · intro hmem
    have h := (labels_filter_conjunctive labelDB none 5 ["a", "b"]
      (by decide) (by decide) labeledPostOne).mp hmem
    have hb := h.2.2 "b" (by decide)
    exact absurd hb (by decide)

/-! ### C5: premium content gating -/

/-- C5: a published premium post requested by a non-admin without an
active subscription (anonymous requesters and failed subscription checks
included) is served with contentRestricted = true and the stored preview
in the content field, with the preview field nulled; and the response is
unchanged under any replacement of the stored full content, so the full
content never appears anywhere in the response. -/
theorem premium_gating (db : DB) (P : Nat) (req : Requester) (p : PostRow)
    (hfind : db.posts.find? (fun q => q.id == P && q.status == 1) = some p)
    (hprem : p.isPremium = true)
    (hadmin : req.isAdmin = false)
    (hsub : req.auth0Id = none ∨ req.subscriptionActive ≠ some true)
    (hP : P ≠ 0) :
    (∃ resp : GetPostResponse,
      getPostByIdRoute db P req = RouteResult.success resp ∧
      resp.contentRestricted = true ∧
      resp.post.content = p.preview ∧
      resp.post.preview = none) ∧
    (∀ c : String,
      getPostByIdRoute (setStoredContent db P c) P req =
        getPostByIdRoute db P req) := by
  have hP0 : (P == 0) = false := beq_eq_false_iff_ne.mpr hP
  have haccess : premiumHasAccess req = false := by
    simp only [premiumHasAccess, hadmin]
    rw [if_neg Bool.false_ne_true]
    cases haid : req.auth0Id with
    | none => rfl
    | some a =>
      cases hsub with
      | inl h => rw [h] at haid; cases haid
      | inr h =>
        cases hsa : req.subscriptionActive with
        | none => rfl
        | some b =>
          cases b with
          | false => rfl
          | true => rw [hsa] at h; exact absurd rfl h
  have hpP : (p.id == P) = true := by
    have h0 := List.find?_some hfind
    have h1 : p.id = P ∧ p.status = 1 := by simpa using h0
    exact beq_iff_eq.mpr h1.1
  have hbase : ∀ (db' : DB) (p' : PostRow),
      db'.posts.find? (fun q => q.id == P && q.status == 1) = some p' →
      p'.isPremium = true →
      getPostByIdRoute db' P req =
        RouteResult.success ⟨true, restrictedDetail db' P req p', true⟩ := by
    intro db' p' hf hprem'
    simp only [getPostByIdRoute, hP0, getPostById, hf, Option.map_some,
      hprem', haccess]
    rw [if_neg Bool.false_ne_true]
    simp [restrictedDetail, hprem']
  have hpred : ∀ c : String, ∀ q : PostRow,
      (((if q.id == P then { q with content := c } else q).id == P) &&
       ((if q.id == P then { q with content := c } else q).status == 1))
      = (q.id == P && q.status == 1) := by
    intro c q
    by_cases hq : (q.id == P) = true
    · rw [if_pos hq]
    · rw [if_neg hq]
  have hfind2 : ∀ c : String, (setStoredContent db P c).posts.find?
      (fun q => q.id == P && q.status == 1) =
      some { p with content := c } := by
    intro c
    show (db.posts.map (fun q =>
      if q.id == P then { q with content := c } else q)).find?
        (fun q => q.id == P && q.status == 1) = _
    rw [find?_map_pred _ _ _ (hpred c), hfind]
    show some (if p.id == P then { p with content := c } else p) = _
    rw [if_pos hpP]
  refine ⟨⟨_, hbase db p hfind hprem, rfl, rfl, rfl⟩, ?_⟩
  intro c
  rw [hbase (setStoredContent db P c) { p with content := c } (hfind2 c)
    hprem, hbase db p hfind hprem]
  rfl

/-- C5 witness: the premium sample post served to an anonymous requester
is restricted to its preview and independent of the stored content. -/
theorem premium_gating_witness :
    (∃ resp : GetPostResponse,
      getPostByIdRoute premiumDB 1 anonReq = RouteResult.success resp ∧
      resp.contentRestricted = true ∧
      resp.post.content = premiumPost.preview ∧
      resp.post.preview = none) ∧
    (∀ c : String,
      getPostByIdRoute (setStoredContent premiumDB 1 c) 1 anonReq =
        getPostByIdRoute premiumDB 1 anonReq) :=
  premium_gating premiumDB 1 anonReq premiumPost rfl rfl rfl (Or.inl rfl)
    (by decide)

/-! ### C6 and C10: the metrics cache -/

/-- C6 counterexample: with a snapshot cached at millisecond 1, a call
at 900000 (inside the 15-minute window of the cached timestamp) returns
the cached snapshot, while a call two milliseconds later at 900002 falls
past the window, recomputes and returns a different snapshot — two calls
less than 15 minutes apart that are not bit-identical. -/
theorem metrics_two_calls_counterexample :
    900002 - 900000 < metricsTTL ∧
    (getMetrics metricsCache0 900000 (some freshMetrics)).2 =
      cachedMetrics ∧
    (getMetrics (getMetrics metricsCache0 900000 (some freshMetrics)).1
      900002 (some freshMetrics)).2 = freshMetrics ∧
    cachedMetrics ≠ freshMetrics :=
  ⟨by decide, rfl, rfl, by decide⟩

/-- C6 (amended): while the call clock is less than 15 minutes past the
cached timestamp, getMetrics returns the cached snapshot unchanged —
so any two calls inside that window return bit-identical snapshots —
and a call at or past 15 minutes after the cached timestamp recomputes
and, when the recomputation succeeds, replaces the cache slot with the
new snapshot and its timestamp. -/
theorem metrics_cache_window (cache : MetricsCache) (d : MetricsData)
    (ts t1 t2 : Nat) (c1 c2 : Option MetricsData) (m : MetricsData)
    (hdata : cache.data = some d) (hts : cache.timestamp = some ts)
    (hts0 : ts ≠ 0) :
    (t1 - ts < metricsTTL → t2 - ts < metricsTTL →
      (getMetrics cache t1 c1).2 = d ∧
      (getMetrics (getMetrics cache t1 c1).1 t2 c2).2 = d) ∧
    (metricsTTL ≤ t2 - ts →
      getMetrics cache t2 (some m) =
        ({ data := some m, timestamp := some t2 }, m)) := by
  have hhit : ∀ t : Nat, ∀ c : Option MetricsData, t - ts < metricsTTL →
      getMetrics cache t c = (cache, d) := by
    intro t c ht
    have hcond : (ts != 0 && decide (t - ts < metricsTTL)) = true := by
      simp [hts0, ht]
    simp only [getMetrics, hdata, hts, hcond]
    rw [if_pos (by trivial)]
  refine ⟨?_, ?_⟩
  · intro h1 h2
    refine ⟨by rw [hhit t1 c1 h1], ?_⟩
    rw [hhit t1 c1 h1]
    show (getMetrics cache t2 c2).2 = d
    rw [hhit t2 c2 h2]
  · intro hmiss
    have hcond : (ts != 0 && decide (t2 - ts < metricsTTL)) = false := by
      simp [Nat.not_lt.mpr hmiss]
    simp only [getMetrics, hdata, hts, hcond]
    rw [if_neg Bool.false_ne_true]
    rfl

/-- C6 witness: two calls at milliseconds 2 and 3 against the cache
filled at millisecond 1 both return the cached snapshot, and a call at
900001 replaces the slot with the fresh snapshot. -/
theorem metrics_cache_window_witness :
    ((getMetrics metricsCache0 2 none).2 = cachedMetrics ∧
     (getMetrics (getMetrics metricsCache0 2 none).1 3
        (some freshMetrics)).2 = cachedMetrics) ∧
    getMetrics metricsCache0 900001 (some freshMetrics) =
      ({ data := some freshMetrics, timestamp := some 900001 },
       freshMetrics) :=
  ⟨(metrics_cache_window metricsCache0 cachedMetrics 1 2 3 none
      (some freshMetrics) freshMetrics rfl rfl (by decide)).1
      (by decide) (by decide),
   (metrics_cache_window metricsCache0 cachedMetrics 1 2 900001 none
      (some freshMetrics) freshMetrics rfl rfl (by decide)).2
      (by decide)⟩

/-- C10: when the cache misses and recomputation fails, getMetrics
returns the zeroed MetricsData and leaves the cache slot (data and
timestamp) exactly as it was; with nothing cached, a later call whose
recomputation succeeds returns the fresh snapshot rather than serving
the zeroed one for the cache window. -/
theorem metrics_failure_not_cached (cache : MetricsCache)
    (now later : Nat) (m : MetricsData)
    (hmiss : ∀ d ts, cache.data = some d → cache.timestamp = some ts →
      (ts != 0 && decide (now - ts < metricsTTL)) = false) :
    getMetrics cache now none = (cache, emptyMetrics) ∧
    (cache.data = none →
      (getMetrics (getMetrics cache now none).1 later (some m)).2 = m) := by
  have hfail : getMetrics cache now none = (cache, emptyMetrics) := by
    cases hd : cache.data with
    | none =>
      simp only [getMetrics, hd]
      rfl
    | some d =>
      cases hts : cache.timestamp with
      | none =>
        simp only [getMetrics, hd, hts]
        rfl
      | some ts =>
        simp only [getMetrics, hd, hts, hmiss d ts hd hts]
        rw [if_neg Bool.false_ne_true]
        rfl
  refine ⟨hfail, ?_⟩
  intro hnone
  rw [hfail]
  show (getMetrics cache later (some m)).2 = m
  simp only [getMetrics, hnone]
  rfl

/-- C10 witness: starting from the empty cache, a failed recomputation
returns zeroes without populating the slot, and the next call with a
successful recomputation returns the fresh snapshot. -/
theorem metrics_failure_not_cached_witness :
    getMetrics metricsCacheEmpty 5 none =
      (metricsCacheEmpty, emptyMetrics) ∧
    (metricsCacheEmpty.data = none →
      (getMetrics (getMetrics metricsCacheEmpty 5 none).1 6
        (some freshMetrics)).2 = freshMetrics) :=
  metrics_failure_not_cached metricsCacheEmpty 5 6 freshMetrics
    (fun d ts hd hts => Option.noConfusion hd)

end ContentApp
